import Mathlib

/-!
Shallow embedding of the FIndingDodo platformer core (src/scenes.py, src/main.py).
Python floats are modelled as rationals (every constant in the sources is a small
dyadic rational), Python ints as `Int`, pygame `Rect`s as integer rectangles.
All definitions are computable and follow the source line by line.
-/

namespace Dodo

/-! ### Constants (src/scenes.py lines 8-35, src/main.py line 10) -/

def TILE : ℤ := 16

def GRAVITY : ℚ := 3/4
def JUMP_VEL : ℚ := 11
def MOVE_SPEED : ℚ := 7/2
def MAX_FALL : ℚ := 16

def DEATH_COOLDOWN_S : ℚ := 1/2

def LAVA_CHAR : Char := '~'
def LAVA_STUN_S : ℚ := 1

def SAFE_ZONE_TILES : ℤ := 2

def CONSUMABLE_CHAR : Char := 'C'
def REQUIRED_CONSUMABLES : ℕ := 6

def STALACT_LEN_TILES : ℤ := 3
def STALAG_LEN_TILES : ℤ := 3
def STALACT_FALL_GRAV : ℚ := 9/10
def STALACT_MAX_FALL : ℚ := 20
def STALACT_TRIGGER_PAD : ℤ := 2

def TIP_H : ℤ := TILE
def TIP_W : ℤ := max 4 (TILE.fdiv 3)

/-! ### Python numeric helpers

`pyRound` is Python 3 `round` (round half to even); `int(round(v))` on our
rational model is exactly `pyRound`.  `pyInt` is Python `int()` truncation
toward zero. -/

def pyRound (q : ℚ) : ℤ :=
  let f := ⌊q⌋
  let frac := q - f
  if frac < 1/2 then f
  else if 1/2 < frac then f + 1
  else if f % 2 = 0 then f else f + 1

def pyInt (q : ℚ) : ℤ :=
  if 0 ≤ q then ⌊q⌋ else ⌈q⌉

/-! ### pygame rectangles

`colliderect` is pygame's strict-overlap test; `inflate` grows a rectangle
keeping its centre (pygame shifts the corner by `amount / 2` with C truncating
division, here `Int.div`). -/

structure Rect where
  x : ℤ
  y : ℤ
  w : ℤ
  h : ℤ
deriving DecidableEq, Repr

namespace Rect

def left (r : Rect) : ℤ := r.x
def right (r : Rect) : ℤ := r.x + r.w
def top (r : Rect) : ℤ := r.y
def bottom (r : Rect) : ℤ := r.y + r.h
def centerx (r : Rect) : ℤ := r.x + r.w.tdiv 2
def centery (r : Rect) : ℤ := r.y + r.h.tdiv 2

def colliderect (a b : Rect) : Bool :=
  decide (a.x < b.x + b.w) && decide (b.x < a.x + a.w) &&
  decide (a.y < b.y + b.h) && decide (b.y < a.y + a.h)

def inflate (r : Rect) (dx dy : ℤ) : Rect :=
  { x := r.x - dx.tdiv 2, y := r.y - dy.tdiv 2, w := r.w + dx, h := r.h + dy }

end Rect

/-! ### TileMap (src/scenes.py lines 122-184)

`__init__` stores the grid, computes `h`/`w` (`len(grid[0]) if self.h else 0`)
and runs `_build`: one pass over all cells filling the geometry lists, then the
three synthetic cage rectangles outside the left/right/top edges.  There is no
validation of any kind: construction is total, also for an empty grid or for
ragged rows. -/

structure TileMap where
  grid : List (List Char)
  h : ℤ
  w : ℤ
  world_w : ℤ
  world_h : ℤ
  base_solids : List Rect
  doors : List Rect
  lava : List Rect
  collectible_tiles : List (ℤ × ℤ)
  spawn_px : ℤ × ℤ
  stalact_anchors : List (ℤ × ℤ)
  stalag_bases : List (ℤ × ℤ)
deriving DecidableEq, Repr

/-- One parsed cell: which geometry list the character contributes to
(the per-character `if`/`elif` chain in `_build`). -/
structure CellAcc where
  base_solids : List Rect
  doors : List Rect
  lava : List Rect
  collectible_tiles : List (ℤ × ℤ)
  spawn_px : ℤ × ℤ
  stalact_anchors : List (ℤ × ℤ)
  stalag_bases : List (ℤ × ℤ)
deriving DecidableEq, Repr

def buildCell (acc : CellAcc) (x y : ℤ) (ch : Char) : CellAcc :=
  let rx := x * TILE
  let ry := y * TILE
  let r : Rect := ⟨rx, ry, TILE, TILE⟩
  if ch = '#' ∨ ch = '=' then { acc with base_solids := acc.base_solids ++ [r] }
  else if ch = 'D' ∨ ch = '1' ∨ ch = '2' ∨ ch = 'R' ∨ ch = 'F' then
    { acc with doors := acc.doors ++ [r] }
  else if ch = 'P' then { acc with spawn_px := (rx, ry) }
  else if ch = '^' then { acc with stalact_anchors := acc.stalact_anchors ++ [(x, y)] }
  else if ch = 'v' then { acc with stalag_bases := acc.stalag_bases ++ [(x, y)] }
  else if ch = LAVA_CHAR then { acc with lava := acc.lava ++ [r] }
  else if ch = CONSUMABLE_CHAR then
    { acc with collectible_tiles := acc.collectible_tiles ++ [(x, y)] }
  else acc

def buildRow (acc : CellAcc) (y : ℤ) (row : List Char) : CellAcc :=
  row.enum.foldl (fun a p => buildCell a (p.1 : ℤ) y p.2) acc

def TileMap.build (grid : List (List Char)) : TileMap :=
  let h : ℤ := grid.length
  let w : ℤ := if h ≠ 0 then (grid.headD []).length else 0
  let world_w := w * TILE
  let world_h := h * TILE
  let acc0 : CellAcc :=
    { base_solids := [], doors := [], lava := [], collectible_tiles := []
      spawn_px := (2 * TILE, (h - 3) * TILE), stalact_anchors := [], stalag_bases := [] }
  let acc := grid.enum.foldl (fun a p => buildRow a (p.1 : ℤ) p.2) acc0
  { grid := grid, h := h, w := w, world_w := world_w, world_h := world_h
    base_solids := acc.base_solids ++
      [⟨-TILE, 0, TILE, world_h⟩, ⟨world_w, 0, TILE, world_h⟩, ⟨0, -TILE, world_w, TILE⟩]
    doors := acc.doors, lava := acc.lava
    collectible_tiles := acc.collectible_tiles
    spawn_px := acc.spawn_px
    stalact_anchors := acc.stalact_anchors
    stalag_bases := acc.stalag_bases }

/-- `tile_at_pixel` (src/scenes.py lines 176-181): Python `//` is floor
division (`Int.fdiv`); an out-of-bounds tile coordinate yields `'.'`. -/
def TileMap.tile_at_pixel (tm : TileMap) (px py : ℤ) : Char :=
  let tx := px.fdiv TILE
  let ty := py.fdiv TILE
  if 0 ≤ ty ∧ ty < tm.h ∧ 0 ≤ tx ∧ tx < tm.w then
    (tm.grid.getD ty.toNat []).getD tx.toNat '.'
  else '.'

def TileMap.tile_under_player (tm : TileMap) (player_rect : Rect) : Char :=
  tm.tile_at_pixel player_rect.centerx player_rect.centery

/-! ### StalactiteGroup (src/scenes.py lines 210-264)

The float fields `y`/`vy` are modelled as rationals, `int(self.y)` as
`pyInt`.  `update` walks `max(1, int(round(vy)))` single-pixel steps and, on
the first overlap with a static solid (Python returns inside the inner `for`),
snaps, zeroes velocity and sets `landed` permanently. -/

structure Stalactite where
  anchor_y : ℤ
  x0_tile : ℤ
  x1_tile : ℤ
  x : ℤ
  w_tiles : ℤ
  w : ℤ
  h : ℤ
  y : ℚ
  vy : ℚ
  falling : Bool
  landed : Bool
deriving DecidableEq, Repr

def Stalactite.mk' (anchor_y_tile x0_tile x1_tile : ℤ) : Stalactite :=
  let anchor_y := anchor_y_tile * TILE
  let w_tiles := x1_tile - x0_tile + 1
  { anchor_y := anchor_y, x0_tile := x0_tile, x1_tile := x1_tile
    x := x0_tile * TILE, w_tiles := w_tiles, w := w_tiles * TILE
    h := STALACT_LEN_TILES * TILE
    y := (anchor_y : ℚ), vy := 0, falling := false, landed := false }

def Stalactite.rect (st : Stalactite) : Rect :=
  ⟨st.x, pyInt st.y, st.w, st.h⟩

def Stalactite.solid_rect (st : Stalactite) : Rect := st.rect

def Stalactite.tip_hitboxes (st : Stalactite) : List Rect :=
  let base_y := pyInt st.y + st.h - TIP_H
  (List.range st.w_tiles.toNat).map fun i =>
    let col_x := st.x + (i : ℤ) * TILE
    ⟨col_x + (TILE - TIP_W).tdiv 2, base_y, TIP_W, TIP_H⟩

def Stalactite.should_trigger (st : Stalactite) (player_rect : Rect) : Bool :=
  let cx := player_rect.centerx
  if cx < st.x + STALACT_TRIGGER_PAD ∨ st.x + st.w - STALACT_TRIGGER_PAD < cx then
    false
  else
    decide (st.anchor_y + TILE < player_rect.top)

/-- The single-pixel fall loop of `StalactiteGroup.update`
(`for _ in range(max(1, dy))`). -/
def Stalactite.fallSteps (st : Stalactite) (solids_static : List Rect) : ℕ → Stalactite
  | 0 => st
  | n + 1 =>
    let st := { st with y := st.y + 1 }
    match solids_static.find? (fun s => st.rect.colliderect s) with
    | some s => { st with y := ((s.top - st.h : ℤ) : ℚ), vy := 0, landed := true }
    | none => st.fallSteps solids_static n

def Stalactite.update (st : Stalactite) (solids_static : List Rect)
    (player_rect : Rect) : Stalactite :=
  if st.landed then st
  else
    let st := if ¬st.falling ∧ st.should_trigger player_rect then
        { st with falling := true } else st
    if ¬st.falling then st
    else
      let st := { st with vy := min STALACT_MAX_FALL (st.vy + STALACT_FALL_GRAV) }
      let dy := pyRound st.vy
      st.fallSteps solids_static (max 1 dy).toNat

/-! ### StalagmiteGroup (src/scenes.py lines 295-319): stateless geometry. -/

structure Stalagmite where
  base_y : ℤ
  x0_tile : ℤ
  x1_tile : ℤ
  x : ℤ
  w_tiles : ℤ
  w : ℤ
  h : ℤ
  y : ℤ
deriving DecidableEq, Repr

def Stalagmite.mk' (base_y_tile x0_tile x1_tile : ℤ) : Stalagmite :=
  let base_y := base_y_tile * TILE
  let w_tiles := x1_tile - x0_tile + 1
  let h := STALAG_LEN_TILES * TILE
  { base_y := base_y, x0_tile := x0_tile, x1_tile := x1_tile
    x := x0_tile * TILE, w_tiles := w_tiles, w := w_tiles * TILE
    h := h, y := base_y - h + TILE }

def Stalagmite.rect (sg : Stalagmite) : Rect :=
  ⟨sg.x, sg.y, sg.w, sg.h⟩

def Stalagmite.solid_rect (sg : Stalagmite) : Rect := sg.rect

def Stalagmite.tip_hitboxes (sg : Stalagmite) : List Rect :=
  let top_y := sg.y
  (List.range sg.w_tiles.toNat).map fun i =>
    let col_x := sg.x + (i : ℤ) * TILE
    ⟨col_x + (TILE - TIP_W).tdiv 2, top_y, TIP_W, TIP_H⟩

/-! ### Player (src/scenes.py lines 350-402)

`move_and_collide` returns the updated player together with the death signal
(`True` on lethal-tip contact).  The vertical pass walks `abs(dy)` single-pixel
steps; at each step the lethal check runs first (returning `True` leaves
`vy`/`on_ground` untouched), then the first overlapping solid snaps the
player's leading edge and zeroes `vy`; `grounded` is set only on a downward
hit. -/

structure Player where
  rect : Rect
  vx : ℚ
  vy : ℚ
  on_ground : Bool
deriving DecidableEq, Repr

structure Keys where
  a : Bool
  d : Bool
  w : Bool
  space : Bool
  e : Bool
deriving DecidableEq, Repr

def Player.handle_input (p : Player) (keys : Keys) : Player :=
  let vx : ℚ := 0
  let vx := if keys.a then vx - MOVE_SPEED else vx
  let vx := if keys.d then vx + MOVE_SPEED else vx
  let p := { p with vx := vx }
  if (keys.w ∨ keys.space) ∧ p.on_ground then
    { p with vy := -JUMP_VEL, on_ground := false }
  else p

def Player.apply_gravity (p : Player) : Player :=
  { p with vy := min MAX_FALL (p.vy + GRAVITY) }

/-- The horizontal solid pass: every overlapping solid snaps the leading edge
(the Python `for` loop does not break). -/
def horizResolve (r : Rect) (vx : ℚ) : List Rect → Rect
  | [] => r
  | s :: rest =>
    let r := if r.colliderect s then
        (if 0 < vx then { r with x := s.left - r.w }
         else if vx < 0 then { r with x := s.right }
         else r)
      else r
    horizResolve r vx rest

/-- The vertical single-pixel loop (`for _ in range(abs(dy))`).  Local
`grounded` starts `False` and is only ever set on a downward solid hit, right
before returning. -/
def verticalSteps (p : Player) (solids lethal : List Rect) (step : ℤ) :
    ℕ → Player × Bool
  | 0 => ({ p with on_ground := false }, false)
  | n + 1 =>
    if lethal.any (fun tip =>
        ({ p.rect with y := p.rect.y + step } : Rect).colliderect tip) then
      ({ p with rect := { p.rect with y := p.rect.y + step } }, true)
    else
      match solids.find? (fun s =>
          ({ p.rect with y := p.rect.y + step } : Rect).colliderect s) with
      | some s =>
        if 0 < step then
          ({ p with rect := { p.rect with y := s.top - p.rect.h }, vy := 0
                    on_ground := true }, false)
        else
          ({ p with rect := { p.rect with y := s.bottom }, vy := 0
                    on_ground := false }, false)
      | none =>
        verticalSteps { p with rect := { p.rect with y := p.rect.y + step } }
          solids lethal step n

def Player.move_and_collide (p : Player) (solids lethal : List Rect) :
    Player × Bool :=
  let p := { p with rect := { p.rect with x := p.rect.x + pyRound p.vx } }
  if lethal.any (fun tip => p.rect.colliderect tip) then (p, true)
  else
    let p := { p with rect := horizResolve p.rect p.vx solids }
    let dy := pyRound p.vy
    let step : ℤ := if 0 < dy then 1 else -1
    verticalSteps p solids lethal step dy.natAbs

def clamp_player (p : Player) (tm : TileMap) : Player :=
  let r := p.rect
  let r := if r.left < 0 then { r with x := 0 } else r
  let r := if tm.world_w < r.right then { r with x := tm.world_w - r.w } else r
  let r := if r.top < 0 then { r with y := 0 } else r
  { p with rect := r }

/-! ### build_contiguous_runs (src/scenes.py lines 405-423)

The Python dict `by_row` (insertion-ordered, `setdefault(y, []).append(x)`) is
modelled as an association list; `xs.sort()` as insertion sort by `≤` (both
produce the sorted permutation, which is unique for the duplicate-free column
lists arising here). -/

def addToRow (rows : List (ℤ × List ℤ)) (y x : ℤ) : List (ℤ × List ℤ) :=
  match rows with
  | [] => [(y, [x])]
  | (y', xs) :: rest =>
    if y' = y then (y', xs ++ [x]) :: rest else (y', xs) :: addToRow rest y x

def byRow (points : List (ℤ × ℤ)) : List (ℤ × List ℤ) :=
  points.foldl (fun rows p => addToRow rows p.2 p.1) []

/-- The run-splitting loop over `xs[1:]` with its `start`/`prev` registers,
followed by the final `row_runs.append((start, prev))`. -/
def rowRunsAux (start prev : ℤ) : List ℤ → List (ℤ × ℤ)
  | [] => [(start, prev)]
  | x :: rest =>
    if x = prev + 1 then rowRunsAux start x rest
    else (start, prev) :: rowRunsAux x x rest

def rowRuns : List ℤ → List (ℤ × ℤ)
  | [] => []
  | x :: rest => rowRunsAux x x rest

def build_contiguous_runs (points : List (ℤ × ℤ)) : List (ℤ × List (ℤ × ℤ)) :=
  (byRow points).map fun p => (p.1, rowRuns (p.2.insertionSort (· ≤ ·)))

def build_stalactites (tm : TileMap) : List Stalactite :=
  if tm.stalact_anchors = [] then []
  else
    (build_contiguous_runs tm.stalact_anchors).flatMap fun yr =>
      yr.2.map fun r => Stalactite.mk' yr.1 r.1 r.2

def build_stalagmites (tm : TileMap) : List Stalagmite :=
  if tm.stalag_bases = [] then []
  else
    (build_contiguous_runs tm.stalag_bases).flatMap fun yr =>
      yr.2.map fun r => Stalagmite.mk' yr.1 r.1 r.2

/-! ### Door safe zone and hazard suppression (src/scenes.py lines 448-473) -/

def in_door_safe_zone (player_rect : Rect) (doors : List Rect) : Bool :=
  let inflate := SAFE_ZONE_TILES * TILE
  doors.any fun d => player_rect.colliderect (d.inflate inflate inflate)

def build_solids (tm : TileMap) (stalactites : List Stalactite)
    (stalagmites : List Stalagmite) (safe : Bool) : List Rect :=
  let solids := tm.base_solids
  if safe then solids
  else solids ++ stalactites.map Stalactite.solid_rect
    ++ stalagmites.map Stalagmite.solid_rect

def collect_lethal_tips (stalactites : List Stalactite)
    (stalagmites : List Stalagmite) (safe : Bool) : List Rect :=
  if safe then []
  else stalactites.flatMap Stalactite.tip_hitboxes
    ++ stalagmites.flatMap Stalagmite.tip_hitboxes

/-! ### build_connected_groups (src/scenes.py lines 65-86)

Depth-first flood fill over 4-neighbour adjacency.  The Python `set` is
modelled as a duplicate-free list; `next(iter(pts))` (an arbitrary set
element) is taken to be the head.  The loops are given explicit fuel equal to
an upper bound on their iteration count, so the fuel never runs out. -/

def floodVisit (x y : ℤ) (pts stack : List (ℤ × ℤ)) :
    List (ℤ × ℤ) × List (ℤ × ℤ) :=
  [(x + 1, y), (x - 1, y), (x, y + 1), (x, y - 1)].foldl
    (fun acc n =>
      if n ∈ acc.1 then (acc.1.erase n, n :: acc.2) else acc)
    (pts, stack)

/-- The inner `while stack:` loop; returns (group, remaining points). -/
def floodLoop : ℕ → List (ℤ × ℤ) → List (ℤ × ℤ) → List (ℤ × ℤ) →
    List (ℤ × ℤ) × List (ℤ × ℤ)
  | 0, _, pts, group => (group, pts)
  | _ + 1, [], pts, group => (group, pts)
  | fuel + 1, (x, y) :: stack, pts, group =>
    let group := group ++ [(x, y)]
    let (pts, stack) := floodVisit x y pts stack
    floodLoop fuel stack pts group

/-- The outer `while pts:` loop. -/
def groupsLoop : ℕ → List (ℤ × ℤ) → List (List (ℤ × ℤ))
  | 0, _ => []
  | _ + 1, [] => []
  | fuel + 1, start :: pts =>
    let (group, pts') := floodLoop (pts.length + 1) [start] pts []
    group :: groupsLoop fuel pts'

def build_connected_groups (points : List (ℤ × ℤ)) : List (List (ℤ × ℤ)) :=
  let pts := points.dedup
  groupsLoop (pts.length + 1) pts

/-! ### CollectibleGroup (src/scenes.py lines 89-111) and pickup
(src/scenes.py lines 676-687)

The group key `uid` is `(level_id, tuple(sorted(tiles)))`; Python sorts pairs
lexicographically.  The global collected-set is modelled as a duplicate-free
list with set-insertion. -/

def pairLe (a b : ℤ × ℤ) : Prop :=
  a.1 < b.1 ∨ (a.1 = b.1 ∧ a.2 ≤ b.2)

instance : DecidableRel pairLe := fun a b => by
  unfold pairLe; infer_instance

structure CollectibleGroup where
  level_id : ℤ
  tiles : List (ℤ × ℤ)
  rects : List Rect
  uid : ℤ × List (ℤ × ℤ)
deriving DecidableEq, Repr

def CollectibleGroup.mk' (level_id : ℤ) (tiles : List (ℤ × ℤ)) :
    CollectibleGroup :=
  let sorted := tiles.insertionSort pairLe
  { level_id := level_id
    tiles := sorted
    rects := sorted.map fun t => ⟨t.1 * TILE, t.2 * TILE, TILE, TILE⟩
    uid := (level_id, sorted) }

def CollectibleGroup.touches (g : CollectibleGroup) (player_rect : Rect) :
    Bool :=
  g.rects.any fun r => player_rect.colliderect r

/-- Global progress ledger plus the persistent difficulty counter
(`SceneManager.collected_count` / `collected_ids` / `level2_lava_stage`). -/
structure GlobalState where
  collected_count : ℕ
  collected_ids : List (ℤ × List (ℤ × ℤ))
  level2_lava_stage : ℕ
deriving DecidableEq, Repr

/-- `LevelScene.collect_consumables`: one pass over the active groups; a
touched group is removed from the active list and, only if its key is not yet
in the collected-set, the key is added and the count incremented. -/
def collectStep (player_rect : Rect)
    (acc : List CollectibleGroup × GlobalState) (grp : CollectibleGroup) :
    List CollectibleGroup × GlobalState :=
  if grp.touches player_rect then
    if grp.uid ∉ acc.2.collected_ids then
      (acc.1,
        { acc.2 with
          collected_ids := acc.2.collected_ids ++ [grp.uid]
          collected_count := acc.2.collected_count + 1 })
    else acc
  else (acc.1 ++ [grp], acc.2)

def collect_consumables (collectibles : List CollectibleGroup)
    (player_rect : Rect) (g : GlobalState) :
    List CollectibleGroup × GlobalState :=
  collectibles.foldl (collectStep player_rect) ([], g)

/-- The collectible-group construction loop of `LevelScene.__init__`
(src/scenes.py lines 632-636): groups whose key is already collected are not
instantiated. -/
def initCollectStep (level_id : ℤ) (collected_ids : List (ℤ × List (ℤ × ℤ)))
    (acc : List CollectibleGroup) (group_tiles : List (ℤ × ℤ)) :
    List CollectibleGroup :=
  let grp := CollectibleGroup.mk' level_id group_tiles
  if grp.uid ∉ collected_ids then acc ++ [grp] else acc

def initCollectibles (level_id : ℤ) (tiles : List (ℤ × ℤ))
    (collected_ids : List (ℤ × List (ℤ × ℤ))) : List CollectibleGroup :=
  (build_connected_groups tiles).foldl (initCollectStep level_id collected_ids) []

/-! ### Dynamic difficulty (src/main.py lines 101-138)

`_apply_level2_progressive_lava` overwrites `'.'` cells with `'~'` on the two
rows `H-4`, `H-5` (row indices as Python ints, hence `ℤ` with the explicit
`0 <= y < H-1` guard), from column 52 for `min(8 + stage*6, W - 54)` cells.
`get_level_grid` deep-copies the stored base grid first; in the pure model a
copy is the value itself. -/

def lavaFill (row : List Char) (W : ℕ) (xs : List ℕ) : List Char :=
  xs.foldl
    (fun row x =>
      if 0 ≤ x ∧ x < W ∧ row.getD x ' ' = '.' then row.set x '~' else row)
    row

def lavaRowIndices (start_x len : ℤ) : List ℕ :=
  if len ≤ 0 then [] else List.range' start_x.toNat len.toNat

def applyLavaRow (grid : List (List Char)) (H : ℤ) (W : ℕ)
    (start_x len : ℤ) (y : ℤ) : List (List Char) :=
  if 0 ≤ y ∧ y < H - 1 then
    let row := grid.getD y.toNat []
    let row := lavaFill row W (lavaRowIndices start_x len)
    grid.set y.toNat row
  else grid

def apply_level2_progressive_lava (grid : List (List Char)) (stage : ℕ) :
    List (List Char) :=
  if stage ≤ 0 then grid
  else
    let W := (grid.headD []).length
    let H : ℤ := grid.length
    let lava_rows : List ℤ := [H - 4, H - 5]
    let start_x : ℤ := 52
    let len : ℤ := min (8 + (stage : ℤ) * 6) ((W : ℤ) - start_x - 2)
    lava_rows.foldl (fun g y => applyLavaRow g H W start_x len y) grid

def get_level_grid (base_l1 base_l2 base_hub : List (List Char))
    (stage : ℕ) (level_id : ℤ) : List (List Char) :=
  if level_id = 1 then base_l1
  else if level_id = 2 then apply_level2_progressive_lava base_l2 stage
  else base_hub

/-- The lava-tile predicate of a grid: cell `(x, y)` holds `'~'`. -/
def isLavaTile (grid : List (List Char)) (x y : ℕ) : Prop :=
  (grid.getD y []).getD x ' ' = '~'

instance (grid : List (List Char)) (x y : ℕ) :
    Decidable (isLavaTile grid x y) := by
  unfold isLavaTile; infer_instance

/-! ### Scene state machines (src/scenes.py lines 506-744)

A scene transition (`manager.change(...)`) is modelled as an emitted event;
`do_reset` (which clears the ledger, bumps the difficulty counter for level 2
and constructs a fresh scene of the same kind) emits a reset event after
performing its global-state writes. -/

inductive SceneChange where
  | win : SceneChange
  | hub : SceneChange
  | level : ℤ → SceneChange
  | resetLevel : ℤ → SceneChange
  | resetHub : SceneChange
deriving DecidableEq, Repr

structure LevelState where
  level_id : ℤ
  map : TileMap
  collectibles : List CollectibleGroup
  player : Player
  stalactites : List Stalactite
  stalagmites : List Stalagmite
  pending_reset : Bool
  death_timer : ℚ
  lava_stun : Bool
  lava_timer : ℚ
deriving DecidableEq, Repr

structure HubState where
  map : TileMap
  player : Player
  stalactites : List Stalactite
  stalagmites : List Stalagmite
  pending_reset : Bool
  death_timer : ℚ
  lava_stun : Bool
  lava_timer : ℚ
deriving DecidableEq, Repr

/-- The door branch at the end of `LevelScene.update` (lines 729-744):
`'D'`/`'R'` and `'F'` all go to `WinScene` when the collected count has
reached `REQUIRED_CONSUMABLES` and back to `HubScene` otherwise. -/
def level_door_check (tile : Char) (count : ℕ) : Option SceneChange :=
  if tile = 'D' ∨ tile = 'R' then
    some (if REQUIRED_CONSUMABLES ≤ count then .win else .hub)
  else if tile = 'F' then
    some (if REQUIRED_CONSUMABLES ≤ count then .win else .hub)
  else none

/-- The door branch at the end of `HubScene.update` (lines 586-594). -/
def hub_door_check (tile : Char) : Option SceneChange :=
  if tile = '1' then some (.level 1)
  else if tile = '2' then some (.level 2)
  else none

/-- The hazard/physics phase of `LevelScene.update` / `HubScene.update`
(safe-zone test, stalactite updates, solid/tip assembly, input, gravity,
`move_and_collide`); returns the updated player, updated stalactites and the
death signal. -/
def playPhase (map : TileMap) (player : Player) (stalactites : List Stalactite)
    (stalagmites : List Stalagmite) (keys : Keys) :
    Player × List Stalactite × Bool :=
  let safe := in_door_safe_zone player.rect map.doors
  let stalactites :=
    if safe then stalactites
    else stalactites.map fun st => st.update map.base_solids player.rect
  let solids := build_solids map stalactites stalagmites safe
  let lethal := collect_lethal_tips stalactites stalagmites safe
  let player := (player.handle_input keys).apply_gravity
  let moved := player.move_and_collide solids lethal
  (moved.1, stalactites, moved.2)

def levelUpdate (s : LevelState) (g : GlobalState) (keys : Keys) (dt : ℚ) :
    LevelState × GlobalState × Option SceneChange :=
  if s.lava_stun then
    let t := s.lava_timer - dt
    if t ≤ 0 then
      let s := if s.pending_reset then { s with lava_timer := t, lava_stun := false }
        else { s with lava_timer := t, pending_reset := true, death_timer := 0
                      lava_stun := false }
      (s, g, none)
    else ({ s with lava_timer := t }, g, none)
  else if s.pending_reset then
    let t := s.death_timer - dt
    if t ≤ 0 then
      let g := { g with collected_count := 0, collected_ids := [] }
      let g := if s.level_id = 2 then
          { g with level2_lava_stage := g.level2_lava_stage + 1 } else g
      ({ s with death_timer := t }, g, some (.resetLevel s.level_id))
    else ({ s with death_timer := t }, g, none)
  else if s.map.lava.any (fun lr => s.player.rect.colliderect lr) then
    ({ s with lava_stun := true, lava_timer := LAVA_STUN_S
              player := { s.player with vx := 0, vy := 0 } }, g, none)
  else
    let ph := playPhase s.map s.player s.stalactites s.stalagmites keys
    if ph.2.2 then
      ({ s with player := ph.1, stalactites := ph.2.1
                pending_reset := true, death_timer := DEATH_COOLDOWN_S }, g, none)
    else
      let player := clamp_player ph.1 s.map
      let cg := collect_consumables s.collectibles player.rect g
      let s := { s with player := player, stalactites := ph.2.1
                        collectibles := cg.1 }
      if keys.e then
        (s, cg.2, level_door_check (s.map.tile_under_player s.player.rect)
          cg.2.collected_count)
      else (s, cg.2, none)

def hubUpdate (s : HubState) (g : GlobalState) (keys : Keys) (dt : ℚ) :
    HubState × GlobalState × Option SceneChange :=
  if s.lava_stun then
    let t := s.lava_timer - dt
    if t ≤ 0 then
      let s := if s.pending_reset then { s with lava_timer := t, lava_stun := false }
        else { s with lava_timer := t, pending_reset := true, death_timer := 0
                      lava_stun := false }
      (s, g, none)
    else ({ s with lava_timer := t }, g, none)
  else if s.pending_reset then
    let t := s.death_timer - dt
    if t ≤ 0 then
      let g := { g with collected_count := 0, collected_ids := [] }
      ({ s with death_timer := t }, g, some .resetHub)
    else ({ s with death_timer := t }, g, none)
  else if s.map.lava.any (fun lr => s.player.rect.colliderect lr) then
    ({ s with lava_stun := true, lava_timer := LAVA_STUN_S
              player := { s.player with vx := 0, vy := 0 } }, g, none)
  else
    let ph := playPhase s.map s.player s.stalactites s.stalagmites keys
    if ph.2.2 then
      ({ s with player := ph.1, stalactites := ph.2.1
                pending_reset := true, death_timer := DEATH_COOLDOWN_S }, g, none)
    else
      let player := clamp_player ph.1 s.map
      let s := { s with player := player, stalactites := ph.2.1 }
      if keys.e then
        (s, g, hub_door_check (s.map.tile_under_player s.player.rect))
      else (s, g, none)

/-! ### Concrete fixtures used by the witness theorems -/

def doorGrid : List (List Char) :=
  [['.', '.', '.'], ['.', 'D', '.'], ['#', '#', '#']]

def lavaGrid : List (List Char) :=
  [['.', '.'], ['~', '.'], ['#', '#']]

def keysInteract : Keys :=
  { a := false, d := false, w := false, space := false, e := true }

def keysIdle : Keys :=
  { a := false, d := false, w := false, space := false, e := false }

def playerAt (x y : ℤ) : Player :=
  { rect := ⟨x, y, 16, 16⟩, vx := 0, vy := 0, on_ground := false }

def levelFixture : LevelState :=
  { level_id := 1, map := TileMap.build doorGrid, collectibles := []
    player := playerAt 16 16, stalactites := [], stalagmites := []
    pending_reset := false, death_timer := 0, lava_stun := false, lava_timer := 0 }

def lavaFixture : LevelState :=
  { level_id := 2, map := TileMap.build lavaGrid, collectibles := []
    player := playerAt 0 16, stalactites := [], stalagmites := []
    pending_reset := false, death_timer := 0, lava_stun := false, lava_timer := 0 }

def ledger0 : GlobalState :=
  { collected_count := 0, collected_ids := [], level2_lava_stage := 0 }

def ledger6 : GlobalState :=
  { collected_count := 6, collected_ids := [], level2_lava_stage := 0 }

def restingStalactite : Stalactite :=
  { anchor_y := 0, x0_tile := 0, x1_tile := 0, x := 0, w_tiles := 1, w := 16
    h := 48, y := 5, vy := 0, falling := true, landed := true }

def groupA : CollectibleGroup := CollectibleGroup.mk' 1 [(0, 0)]

def ledgerA : GlobalState :=
  { collected_count := 1, collected_ids := [groupA.uid], level2_lava_stage := 0 }

/-- The character stored at grid cell `(x, y)` (default `' '` outside). -/
def gridCell (g : List (List Char)) (x y : ℕ) : Char :=
  (g.getD y []).getD x ' '

def wideRow : List Char := List.replicate 60 '.'

def base60 : List (List Char) :=
  [wideRow, wideRow, wideRow, wideRow, wideRow, List.replicate 60 '#']

/-- The column list of row `y`, in input order (what the `by_row` dict holds
at key `y` after the grouping pass). -/
def rowXs (points : List (ℤ × ℤ)) (y : ℤ) : List ℤ :=
  (points.filter (fun p => p.2 == y)).map (·.1)

end Dodo

namespace Dodo

/-! ## Claim theorems -/

theorem fallSteps_falling (solids : List Rect) (n : ℕ) (st : Stalactite) :
    (st.fallSteps solids n).falling = st.falling := by
  induction n generalizing st with
  | zero => rfl
  | succ n ih =>
    rw [Stalactite.fallSteps]
    split
    · rfl
    · exact ih _

theorem stalactite_update_of_landed (st : Stalactite) (solids : List Rect)
    (pr : Rect) (h : st.landed = true) : st.update solids pr = st := by
  unfold Stalactite.update
  simp [h]

/-- C5: the stalactite update realises `PINNED → FALLING → RESTED`:
a landed stalactite is left completely unchanged by `update`; the `falling`
flag, once set, is never cleared; the `landed` flag, once set, is never
cleared; and any state reached with `landed` set is a fixed point of every
further update (idempotence). -/
theorem stalactite_state_machine (st : Stalactite) (solids : List Rect)
    (pr : Rect) :
    (st.landed = true → st.update solids pr = st) ∧
    (st.falling = true → (st.update solids pr).falling = true) ∧
    (st.landed = true → (st.update solids pr).landed = true) ∧
    ((st.update solids pr).landed = true →
      ∀ (solids' : List Rect) (pr' : Rect),
        (st.update solids pr).update solids' pr' = st.update solids pr) := by
  refine ⟨fun h => stalactite_update_of_landed st solids pr h, ?_, ?_, ?_⟩
  · intro hf
    by_cases hl : st.landed = true
    · rw [stalactite_update_of_landed st solids pr hl]; exact hf
    · unfold Stalactite.update
      simp only [hl, if_false, Bool.not_eq_true] at *
      simp [hl, hf, fallSteps_falling]
  · intro hl
    rw [stalactite_update_of_landed st solids pr hl]; exact hl
  · intro hl solids' pr'
    exact stalactite_update_of_landed _ solids' pr' hl

/-- Witness for C5 at a concrete rested stalactite. -/
theorem stalactite_state_machine_witness :
    restingStalactite.update [] ⟨0, 0, 32, 32⟩ = restingStalactite ∧
    (restingStalactite.update [] ⟨0, 0, 32, 32⟩).update [⟨0, 64, 16, 16⟩]
      ⟨0, 0, 32, 32⟩ = restingStalactite.update [] ⟨0, 0, 32, 32⟩ := by
  refine ⟨(stalactite_state_machine restingStalactite [] ⟨0, 0, 32, 32⟩).1 rfl, ?_⟩
  exact (stalactite_state_machine restingStalactite [] ⟨0, 0, 32, 32⟩).2.2.2
    (by decide) [⟨0, 64, 16, 16⟩] ⟨0, 0, 32, 32⟩

/-- C2 counterexample: malformed grids are not rejected.  The empty grid is
malformed, yet `TileMap.build` succeeds and the level is built from it (a
zero-size map with only the three cage rectangles); a ragged grid is likewise
accepted. -/
theorem tilemap_build_accepts_malformed :
    TileMap.build [] =
      { grid := [], h := 0, w := 0, world_w := 0, world_h := 0
        base_solids := [⟨-16, 0, 16, 0⟩, ⟨0, 0, 16, 0⟩, ⟨0, -16, 0, 16⟩]
        doors := [], lava := [], collectible_tiles := []
        spawn_px := (32, -48), stalact_anchors := [], stalag_bases := [] } ∧
    (TileMap.build [['#'], ['#', '#']]).h = 2 := by
  exact ⟨by decide, by decide⟩

/-- C2 (amended): for every malformed grid (empty, or with rows of unequal
length) the tile map is nevertheless constructed — construction is total and
performs no validation; the stored grid, height and width are exactly what
`__init__` computes. -/
theorem tilemap_build_total (grid : List (List Char))
    (h : grid = [] ∨ ∃ r ∈ grid, r.length ≠ (grid.headD []).length) :
    (TileMap.build grid).grid = grid ∧
    (TileMap.build grid).h = grid.length ∧
    (TileMap.build grid).w =
      if grid = [] then 0 else ((grid.headD []).length : ℤ) := by
  refine ⟨rfl, rfl, ?_⟩
  cases grid with
  | nil => rfl
  | cons r rest =>
    simp [TileMap.build]
    omega

/-- Witness for C2 (amended) at the empty grid. -/
theorem tilemap_build_total_witness :
    (TileMap.build []).grid = ([] : List (List Char)) ∧
    (TileMap.build []).h = (0 : ℤ) ∧
    (TileMap.build []).w = (0 : ℤ) := by
  have h := tilemap_build_total [] (Or.inl rfl)
  exact ⟨h.1, h.2.1, by simpa using h.2.2⟩

/-- C4: whenever the body's rectangle overlaps some door rectangle inflated
by `SAFE_ZONE_TILES * TILE`, the safe flag is set, the combined solid list
passed to physics is exactly the static `base_solids` (no stalactite or
stalagmite solids), and the lethal-tip list is empty.  The flag is a pure
function of the body's current rectangle, so it is recomputed from the
current position on every call. -/
theorem door_safe_zone_suppression (tm : TileMap) (cts : List Stalactite)
    (gts : List Stalagmite) (p : Rect)
    (h : ∃ d ∈ tm.doors,
      p.colliderect (d.inflate (SAFE_ZONE_TILES * TILE) (SAFE_ZONE_TILES * TILE)) = true) :
    in_door_safe_zone p tm.doors = true ∧
    build_solids tm cts gts (in_door_safe_zone p tm.doors) = tm.base_solids ∧
    collect_lethal_tips cts gts (in_door_safe_zone p tm.doors) = [] := by
  have hs : in_door_safe_zone p tm.doors = true := by
    unfold in_door_safe_zone
    rw [List.any_eq_true]
    obtain ⟨d, hd, hc⟩ := h
    exact ⟨d, hd, hc⟩
  refine ⟨hs, ?_, ?_⟩
  · rw [hs]; rfl
  · rw [hs]; rfl

/-- Witness for C4: a player standing on a door tile, with a stalagmite
whose tips geometrically overlap the door's safe radius. -/
theorem door_safe_zone_suppression_witness :
    in_door_safe_zone ⟨16, 16, 16, 16⟩ (TileMap.build doorGrid).doors = true ∧
    build_solids (TileMap.build doorGrid) [] [Stalagmite.mk' 2 2 2]
      (in_door_safe_zone ⟨16, 16, 16, 16⟩ (TileMap.build doorGrid).doors) =
      (TileMap.build doorGrid).base_solids ∧
    collect_lethal_tips [] [Stalagmite.mk' 2 2 2]
      (in_door_safe_zone ⟨16, 16, 16, 16⟩ (TileMap.build doorGrid).doors) = [] :=
  door_safe_zone_suppression (TileMap.build doorGrid) [] [Stalagmite.mk' 2 2 2]
    ⟨16, 16, 16, 16⟩ ⟨⟨16, 16, 16, 16⟩, by decide, by decide⟩

theorem tileMap_w_of_ne (grid : List (List Char)) (hne : grid ≠ []) :
    (TileMap.build grid).w = ((grid.headD []).length : ℤ) := by
  cases grid with
  | nil => exact absurd rfl hne
  | cons r rest =>
    simp only [TileMap.build, List.headD_cons, List.length_cons]
    rw [if_pos]
    omega

/-- C10: for a well-formed grid `tile_at_pixel` is total: any coordinate with
a negative component maps outside the grid and yields `'.'`; any coordinate
whose tile indices fall outside the grid yields `'.'`; and for in-grid
coordinates the tile indices are genuine in-range indices of the stored grid
(indexing cannot fail) and the returned character is the stored cell. -/
theorem tile_at_pixel_total (grid : List (List Char)) (hne : grid ≠ [])
    (hwf : ∀ r ∈ grid, r.length = (grid.headD []).length) (px py : ℤ) :
    (px < 0 ∨ py < 0 → (TileMap.build grid).tile_at_pixel px py = '.') ∧
    (¬(0 ≤ py.fdiv TILE ∧ py.fdiv TILE < (TileMap.build grid).h ∧
        0 ≤ px.fdiv TILE ∧ px.fdiv TILE < (TileMap.build grid).w) →
      (TileMap.build grid).tile_at_pixel px py = '.') ∧
    ((0 ≤ py.fdiv TILE ∧ py.fdiv TILE < (TileMap.build grid).h ∧
        0 ≤ px.fdiv TILE ∧ px.fdiv TILE < (TileMap.build grid).w) →
      (py.fdiv TILE).toNat < grid.length ∧
      (px.fdiv TILE).toNat < (grid.getD (py.fdiv TILE).toNat []).length ∧
      (TileMap.build grid).tile_at_pixel px py =
        (grid.getD (py.fdiv TILE).toNat []).getD (px.fdiv TILE).toNat '.') := by
  have hTILE : (0 : ℤ) < TILE := by decide
  have hh : (TileMap.build grid).h = (grid.length : ℤ) := rfl
  have hw := tileMap_w_of_ne grid hne
  refine ⟨?_, ?_, ?_⟩
  · intro hneg
    have hout : ¬(0 ≤ py.fdiv TILE ∧ py.fdiv TILE < (TileMap.build grid).h ∧
        0 ≤ px.fdiv TILE ∧ px.fdiv TILE < (TileMap.build grid).w) := by
      rcases hneg with hx | hy
      · have : px.fdiv TILE < 0 := by
          rw [Int.fdiv_eq_ediv _ (le_of_lt hTILE)]
          exact Int.ediv_neg' hx hTILE
        intro hc
        omega
      · have : py.fdiv TILE < 0 := by
          rw [Int.fdiv_eq_ediv _ (le_of_lt hTILE)]
          exact Int.ediv_neg' hy hTILE
        intro hc
        omega
    unfold TileMap.tile_at_pixel
    rw [if_neg hout]
  · intro hout
    unfold TileMap.tile_at_pixel
    rw [if_neg hout]
  · intro hin
    obtain ⟨hy0, hyh, hx0, hxw⟩ := hin
    have hylt : (py.fdiv TILE).toNat < grid.length := by
      rw [hh] at hyh
      omega
    have hrow : grid.getD (py.fdiv TILE).toNat [] ∈ grid := by
      have : grid.getD (py.fdiv TILE).toNat [] = grid[(py.fdiv TILE).toNat] := by
        simp [List.getD_eq_getElem?_getD, List.getElem?_eq_getElem hylt]
      rw [this]
      exact List.getElem_mem hylt
    have hxlt : (px.fdiv TILE).toNat < (grid.getD (py.fdiv TILE).toNat []).length := by
      rw [hwf _ hrow]
      rw [hw] at hxw
      omega
    refine ⟨hylt, hxlt, ?_⟩
    unfold TileMap.tile_at_pixel
    rw [if_pos ⟨hy0, hyh, hx0, hxw⟩]
    rfl

/-- Witness for C10 on the door grid: the in-grid pixel (24, 24) indexes the
`'D'` cell, and a negative pixel coordinate yields `'.'`. -/
theorem tile_at_pixel_total_witness :
    (TileMap.build doorGrid).tile_at_pixel (-5) 7 = '.' ∧
    (TileMap.build doorGrid).tile_at_pixel 24 24 = 'D' := by
  constructor
  · exact (tile_at_pixel_total doorGrid (by decide) (by decide) (-5) 7).1
      (Or.inl (by decide))
  · have h := (tile_at_pixel_total doorGrid (by decide) (by decide) 24 24).2.2
      (by decide)
    exact h.2.2.trans (by decide)

theorem collect_ledger_aux (pr : Rect) (l : List CollectibleGroup) :
    ∀ (acc : List CollectibleGroup × GlobalState),
      (∀ grp ∈ l, grp.touches pr = true → grp.uid ∈ acc.2.collected_ids) →
      (l.foldl (collectStep pr) acc).2 = acc.2 := by
  induction l with
  | nil => intro acc _; rfl
  | cons grp rest ih =>
    intro acc h
    rw [List.foldl_cons]
    by_cases ht : grp.touches pr = true
    · have hmem : grp.uid ∈ acc.2.collected_ids := h grp (by simp) ht
      have hstep : collectStep pr acc grp = acc := by
        unfold collectStep
        rw [if_pos ht, if_neg (by simpa using hmem)]
      rw [hstep]
      exact ih acc fun g hg => h g (by simp [hg])
    · have hstep : collectStep pr acc grp = (acc.1 ++ [grp], acc.2) := by
        unfold collectStep
        rw [if_neg ht]
      rw [hstep]
      exact ih _ fun g hg => h g (by simp [hg])

theorem init_collect_aux (level_id : ℤ) (ids : List (ℤ × List (ℤ × ℤ)))
    (groups : List (List (ℤ × ℤ))) :
    ∀ (acc : List CollectibleGroup), (∀ grp ∈ acc, grp.uid ∉ ids) →
      ∀ grp ∈ groups.foldl (initCollectStep level_id ids) acc, grp.uid ∉ ids := by
  induction groups with
  | nil => intro acc h; exact h
  | cons ts rest ih =>
    intro acc h
    rw [List.foldl_cons]
    refine ih _ ?_
    intro grp hg
    simp only [initCollectStep] at hg
    split at hg
    · rcases List.mem_append.1 hg with hg' | hg'
      · exact h grp hg'
      · rw [List.mem_singleton.1 hg']
        assumption
    · exact h grp hg

/-- C7: collectible pickup is exactly-once per group key.  If every group of
the active list that touches the body already has its key in the global
collected-set, a pickup pass leaves the ledger (count and key set) completely
unchanged; and a freshly constructed level never instantiates a group whose
key is already collected. -/
theorem collectible_exactly_once (collectibles : List CollectibleGroup)
    (pr : Rect) (g : GlobalState)
    (h : ∀ grp ∈ collectibles, grp.touches pr = true →
      grp.uid ∈ g.collected_ids) :
    (collect_consumables collectibles pr g).2 = g ∧
    ∀ (level_id : ℤ) (tiles : List (ℤ × ℤ))
      (ids : List (ℤ × List (ℤ × ℤ))),
      ∀ grp ∈ initCollectibles level_id tiles ids, grp.uid ∉ ids := by
  constructor
  · exact collect_ledger_aux pr collectibles ([], g) h
  · intro level_id tiles ids
    exact init_collect_aux level_id ids (build_connected_groups tiles) []
      (by intro grp hg; cases hg)

/-- Witness for C7: touching an already-collected group leaves the ledger
unchanged. -/
theorem collectible_exactly_once_witness :
    (collect_consumables [groupA] ⟨0, 0, 16, 16⟩ ledgerA).2 = ledgerA :=
  (collectible_exactly_once [groupA] ⟨0, 0, 16, 16⟩ ledgerA (by decide)).1

/-- C9: while the scene is in `LAVA_STUN` or `PENDING_RESET`, a frame update
changes only the corresponding countdown timer (the equalities below leave
the player, hazards, collectibles and global ledger untouched); on lava-stun
expiry only the state flags flip, with `death_timer` set to `0` (zero
additional delay); and lava contact is checked before any other per-frame
interaction: a body overlapping lava enters `LAVA_STUN` with both velocity
components zeroed and nothing else of the frame (hazards, physics,
collectibles, doors) runs. -/
theorem stun_and_reset_freeze (s : LevelState) (g : GlobalState) (keys : Keys)
    (dt : ℚ) :
    (s.lava_stun = true → 0 < s.lava_timer - dt →
      levelUpdate s g keys dt =
        ({ s with lava_timer := s.lava_timer - dt }, g, none)) ∧
    (s.lava_stun = true → s.lava_timer - dt ≤ 0 → s.pending_reset = false →
      levelUpdate s g keys dt =
        ({ s with lava_timer := s.lava_timer - dt, lava_stun := false
                  pending_reset := true, death_timer := 0 }, g, none)) ∧
    (s.lava_stun = false → s.pending_reset = true → 0 < s.death_timer - dt →
      levelUpdate s g keys dt =
        ({ s with death_timer := s.death_timer - dt }, g, none)) ∧
    (s.lava_stun = false → s.pending_reset = false →
      s.map.lava.any (fun lr => s.player.rect.colliderect lr) = true →
      levelUpdate s g keys dt =
        ({ s with lava_stun := true, lava_timer := LAVA_STUN_S
                  player := { s.player with vx := 0, vy := 0 } }, g, none)) := by
  refine ⟨?_, ?_, ?_, ?_⟩
  · intro h1 h2
    unfold levelUpdate
    rw [if_pos h1]
    dsimp only
    rw [if_neg (not_le.mpr h2)]
  · intro h1 h2 h3
    unfold levelUpdate
    rw [if_pos h1]
    dsimp only
    rw [if_pos h2, if_neg (by simp [h3])]
  · intro h1 h2 h3
    unfold levelUpdate
    rw [if_neg (by simp [h1]), if_pos h2]
    dsimp only
    rw [if_neg (not_le.mpr h3)]
  · intro h1 h2 h3
    unfold levelUpdate
    rw [if_neg (by simp [h1]), if_neg (by simp [h2]), if_pos h3]

unseal Rat.add Rat.sub Rat.mul Rat.inv in
/-- Witness for C9 at concrete scenes: a running stun timer, an expiring stun
timer, a running death timer, and a body standing in lava. -/
theorem stun_and_reset_freeze_witness :
    (levelUpdate { levelFixture with lava_stun := true, lava_timer := 1 }
        ledger0 keysIdle (1/2) =
      ({ levelFixture with lava_stun := true, lava_timer := 1/2 },
        ledger0, none)) ∧
    (levelUpdate { levelFixture with lava_stun := true, lava_timer := 1 }
        ledger0 keysIdle 2 =
      ({ levelFixture with lava_timer := -1, lava_stun := false
                           pending_reset := true, death_timer := 0 },
        ledger0, none)) ∧
    (levelUpdate { levelFixture with pending_reset := true, death_timer := 1 }
        ledger0 keysIdle (1/2) =
      ({ levelFixture with pending_reset := true, death_timer := 1/2 },
        ledger0, none)) ∧
    (levelUpdate lavaFixture ledger0 keysIdle (1/2) =
      ({ lavaFixture with lava_stun := true, lava_timer := LAVA_STUN_S
                          player := { lavaFixture.player with vx := 0, vy := 0 } },
        ledger0, none)) := by
  refine ⟨?_, ?_, ?_, ?_⟩
  · have h := (stun_and_reset_freeze
      { levelFixture with lava_stun := true, lava_timer := 1 }
      ledger0 keysIdle (1/2)).1 rfl (by norm_num)
    rw [h]
    decide
  · have h := (stun_and_reset_freeze
      { levelFixture with lava_stun := true, lava_timer := 1 }
      ledger0 keysIdle 2).2.1 rfl (by norm_num) rfl
    rw [h]
    decide
  · have h := (stun_and_reset_freeze
      { levelFixture with pending_reset := true, death_timer := 1 }
      ledger0 keysIdle (1/2)).2.2.1 rfl rfl (by norm_num)
    rw [h]
    decide
  · have h := (stun_and_reset_freeze lavaFixture ledger0 keysIdle (1/2)).2.2.2
      rfl rfl (by decide)
    rw [h]

/-- C1: with the interact key held, in a scene that is neither stunned nor
pending a reset, not touching lava, and whose physics pass reports no death,
the very same `update` call returns the door decision computed from the
post-physics body position and the post-pickup collected count (immediate,
same-frame transition).  The door decision table: each of the level door
tiles `'D'`, `'R'`, `'F'` goes to `Win` exactly when the collected count has
reached `REQUIRED_CONSUMABLES` and otherwise back to the hub (so a `Win`
transition implies the threshold was reached), and in the hub tile `'1'`
goes to level 1 and tile `'2'` to level 2. -/
theorem door_interact_transition (s : LevelState) (g : GlobalState)
    (keys : Keys) (dt : ℚ) (he : keys.e = true) (hs1 : s.lava_stun = false)
    (hs2 : s.pending_reset = false)
    (hlava : s.map.lava.any (fun lr => s.player.rect.colliderect lr) = false)
    (hdead : (playPhase s.map s.player s.stalactites s.stalagmites keys).2.2
      = false) :
    ((levelUpdate s g keys dt).2.2 =
      level_door_check
        (s.map.tile_under_player
          (clamp_player
            (playPhase s.map s.player s.stalactites s.stalagmites keys).1
            s.map).rect)
        (collect_consumables s.collectibles
          (clamp_player
            (playPhase s.map s.player s.stalactites s.stalagmites keys).1
            s.map).rect g).2.collected_count) ∧
    (∀ count, level_door_check 'D' count =
      some (if REQUIRED_CONSUMABLES ≤ count then SceneChange.win
        else SceneChange.hub)) ∧
    (∀ count, level_door_check 'R' count =
      some (if REQUIRED_CONSUMABLES ≤ count then SceneChange.win
        else SceneChange.hub)) ∧
    (∀ count, level_door_check 'F' count =
      some (if REQUIRED_CONSUMABLES ≤ count then SceneChange.win
        else SceneChange.hub)) ∧
    (∀ tile count, level_door_check tile count = some SceneChange.win →
      REQUIRED_CONSUMABLES ≤ count) ∧
    hub_door_check '1' = some (SceneChange.level 1) ∧
    hub_door_check '2' = some (SceneChange.level 2) := by
  refine ⟨?_, ?_, ?_, ?_, ?_, rfl, rfl⟩
  · unfold levelUpdate
    rw [if_neg (by simp [hs1]), if_neg (by simp [hs2]), if_neg (by simp [hlava])]
    dsimp only
    rw [if_neg (by simp [hdead]), if_pos he]
  · intro count
    unfold level_door_check
    rw [if_pos (Or.inl rfl)]
  · intro count
    unfold level_door_check
    rw [if_pos (Or.inr rfl)]
  · intro count
    unfold level_door_check
    rw [if_neg (by decide), if_pos rfl]
  · intro tile count h
    unfold level_door_check at h
    by_cases hc : REQUIRED_CONSUMABLES ≤ count
    · exact hc
    · simp only [if_neg hc] at h
      split at h <;> simp_all

unseal Rat.add Rat.sub Rat.mul Rat.inv in
/-- Witness for C1: standing on the `'D'` tile with 6 collected groups, the
same-frame update transitions to the Win scene. -/
theorem door_interact_transition_witness :
    (levelUpdate levelFixture ledger6 keysInteract (1/2)).2.2 =
      some SceneChange.win := by
  have h := (door_interact_transition levelFixture ledger6 keysInteract (1/2)
    rfl rfl rfl (by decide) (by decide)).1
  rw [h]
  decide

theorem verticalSteps_up_no_ground (solids lethal : List Rect) (step : ℤ)
    (hstep : ¬0 < step) : ∀ (n : ℕ) (p : Player),
    (verticalSteps p solids lethal step n).2 = true ∨
    (verticalSteps p solids lethal step n).1.on_ground = false := by
  intro n
  induction n with
  | zero => intro p; right; rfl
  | succ n ih =>
    intro p
    rw [verticalSteps]
    by_cases hany : lethal.any (fun tip =>
        ({ p.rect with y := p.rect.y + step } : Rect).colliderect tip) = true
    · rw [if_pos hany]
      left
      rfl
    · rw [if_neg hany]
      rcases hfind : solids.find? (fun s =>
          ({ p.rect with y := p.rect.y + step } : Rect).colliderect s) with _ | s
      · dsimp only
        exact ih _
      · dsimp only
        rw [if_neg hstep]
        right
        rfl

/-- C3: the vertical pass of `move_and_collide` resolves the rounded vertical
delta one pixel at a time.  At each pixel step the lethal-tip check runs
first: a tip overlap returns the death signal immediately, leaving velocity
and the grounded flag untouched (no further resolution).  Otherwise the first
overlapping solid snaps the body's leading edge to that solid's facing edge
(`top` of the solid when moving down, `bottom` when moving up), zeroes the
vertical velocity, and sets the grounded flag exactly when the hit happened
while moving downward; an upward move that survives the pass never ends
grounded, and neither does a full `move_and_collide` with a negative rounded
vertical velocity. -/
theorem vertical_pixel_resolution (p : Player) (solids lethal : List Rect)
    (step : ℤ) (n : ℕ) :
    (lethal.any (fun tip =>
        ({ p.rect with y := p.rect.y + step } : Rect).colliderect tip) = true →
      verticalSteps p solids lethal step (n + 1) =
        ({ p with rect := { p.rect with y := p.rect.y + step } }, true)) ∧
    (∀ s : Rect,
      lethal.any (fun tip =>
        ({ p.rect with y := p.rect.y + step } : Rect).colliderect tip) = false →
      solids.find? (fun sld =>
        ({ p.rect with y := p.rect.y + step } : Rect).colliderect sld) = some s →
      (0 < step →
        verticalSteps p solids lethal step (n + 1) =
          ({ p with rect := { p.rect with y := s.top - p.rect.h }, vy := 0
                    on_ground := true }, false)) ∧
      (¬0 < step →
        verticalSteps p solids lethal step (n + 1) =
          ({ p with rect := { p.rect with y := s.bottom }, vy := 0
                    on_ground := false }, false))) ∧
    (¬0 < step → (verticalSteps p solids lethal step n).2 = false →
      (verticalSteps p solids lethal step n).1.on_ground = false) ∧
    (pyRound p.vy < 0 → (p.move_and_collide solids lethal).2 = false →
      (p.move_and_collide solids lethal).1.on_ground = false) := by
  refine ⟨?_, ?_, ?_, ?_⟩
  · intro hany
    rw [verticalSteps]
    dsimp only
    rw [if_pos hany]
  · intro s hany hfind
    constructor
    · intro hstep
      rw [verticalSteps]
      dsimp only
      rw [if_neg (by simp [hany]), hfind]
      dsimp only
      rw [if_pos hstep]
    · intro hstep
      rw [verticalSteps]
      dsimp only
      rw [if_neg (by simp [hany]), hfind]
      dsimp only
      rw [if_neg hstep]
  · intro hstep hdead
    refine (verticalSteps_up_no_ground solids lethal step hstep n p).resolve_left ?_
    intro hc
    rw [hdead] at hc
    cases hc
  · intro hvy hdead
    unfold Player.move_and_collide at hdead ⊢
    dsimp only at hdead ⊢
    by_cases hany : lethal.any (fun tip =>
        ({ p with rect :=
          { p.rect with x := p.rect.x + pyRound p.vx } } : Player).rect.colliderect
          tip) = true
    · rw [if_pos hany] at hdead
      cases hdead
    · rw [if_neg hany] at hdead ⊢
      have hstep : ¬0 < (if 0 < pyRound p.vy then (1 : ℤ) else -1) := by
        rw [if_neg (by omega : ¬0 < pyRound p.vy)]
        omega
      refine (verticalSteps_up_no_ground solids lethal _ hstep _ _).resolve_left ?_
      intro hc
      rw [hdead] at hc
      cases hc

unseal Rat.add Rat.sub Rat.mul Rat.inv in
/-- Witness for C3: a tip overlap one pixel below kills without grounding; a
solid one pixel below snaps and grounds; an upward full move never ends
grounded. -/
theorem vertical_pixel_resolution_witness :
    (verticalSteps (playerAt 0 0) [] [⟨0, 16, 16, 16⟩] 1 3 =
      ({ playerAt 0 0 with rect := ⟨0, 1, 16, 16⟩ }, true)) ∧
    (verticalSteps (playerAt 0 0) [⟨0, 16, 16, 16⟩] [] 1 3 =
      ({ playerAt 0 0 with rect := ⟨0, 0, 16, 16⟩, vy := 0
                           on_ground := true }, false)) ∧
    (({ playerAt 0 32 with vy := -11 } : Player).move_and_collide []
        []).1.on_ground = false := by
  refine ⟨?_, ?_, ?_⟩
  · have h := (vertical_pixel_resolution (playerAt 0 0) [] [⟨0, 16, 16, 16⟩]
      1 2).1 (by decide)
    rw [h]
    rfl
  · have h := ((vertical_pixel_resolution (playerAt 0 0) [⟨0, 16, 16, 16⟩] []
      1 2).2.1 ⟨0, 16, 16, 16⟩ (by decide) (by decide)).1 (by decide)
    rw [h]
    decide
  · exact (vertical_pixel_resolution { playerAt 0 32 with vy := -11 } [] []
      1 0).2.2.2 (by decide) (by decide)

theorem list_set_getD {α : Type} :
    ∀ (l : List α) (i x : ℕ) (a d : α),
      (l.set i a).getD x d = if x = i ∧ i < l.length then a else l.getD x d := by
  intro l
  induction l with
  | nil =>
    intro i x a d
    simp
  | cons b t ih =>
    intro i x a d
    cases i with
    | zero =>
      cases x with
      | zero => simp
      | succ m => simp
    | succ j =>
      cases x with
      | zero => simp
      | succ m =>
        simp only [List.set_cons_succ, List.getD_cons_succ, List.length_cons]
        rw [ih]
        by_cases hc : m = j ∧ j < t.length
        · rw [if_pos hc, if_pos (by omega)]
        · rw [if_neg hc, if_neg (by omega)]

theorem getD_ne_default_lt {α : Type} (l : List α) (x : ℕ) (d : α)
    (h : l.getD x d ≠ d) : x < l.length := by
  by_contra hge
  rw [List.getD_eq_getElem?_getD, List.getElem?_eq_none (by omega)] at h
  exact h rfl

theorem lavaFill_cons (row : List Char) (W x' : ℕ) (rest : List ℕ) :
    lavaFill row W (x' :: rest) =
      lavaFill (if 0 ≤ x' ∧ x' < W ∧ row.getD x' ' ' = '.'
        then row.set x' '~' else row) W rest := rfl

theorem lavaFill_getD (W : ℕ) (xs : List ℕ) (hnd : xs.Nodup) :
    ∀ (row : List Char) (x : ℕ),
      (lavaFill row W xs).getD x ' ' =
        if x ∈ xs ∧ x < W ∧ row.getD x ' ' = '.' then '~'
        else row.getD x ' ' := by
  induction xs with
  | nil =>
    intro row x
    simp [lavaFill]
  | cons x' rest ih =>
    intro row x
    have hnr : rest.Nodup := hnd.of_cons
    have hx' : x' ∉ rest := (List.nodup_cons.1 hnd).1
    rw [lavaFill_cons]
    by_cases hc : x' < W ∧ row.getD x' ' ' = '.'
    · rw [if_pos ⟨Nat.zero_le _, hc⟩, ih hnr]
      by_cases hxx : x = x'
      · subst hxx
        have hlt : x < row.length := getD_ne_default_lt row x ' ' (by
          rw [hc.2]
          decide)
        have hset : (row.set x '~').getD x ' ' = '~' := by
          rw [list_set_getD, if_pos ⟨rfl, hlt⟩]
        rw [hset, if_neg (by simp), if_pos ⟨List.mem_cons_self x rest, hc⟩]
      · have hset : (row.set x' '~').getD x ' ' = row.getD x ' ' := by
          rw [list_set_getD, if_neg (fun hcon => hxx hcon.1)]
        rw [hset]
        by_cases hm : x ∈ rest ∧ x < W ∧ row.getD x ' ' = '.'
        · rw [if_pos hm, if_pos ⟨List.mem_cons_of_mem _ hm.1, hm.2⟩]
        · rw [if_neg hm, if_neg (fun hcon =>
            hm ⟨(List.mem_cons.1 hcon.1).resolve_left hxx, hcon.2⟩)]
    · rw [if_neg (fun hcon => hc ⟨hcon.2.1, hcon.2.2⟩), ih hnr]
      by_cases hm : x ∈ rest ∧ x < W ∧ row.getD x ' ' = '.'
      · rw [if_pos hm, if_pos ⟨List.mem_cons_of_mem _ hm.1, hm.2⟩]
      · rw [if_neg hm]
        by_cases hxx : x = x'
        · subst hxx
          rw [if_neg (fun hcon => hc ⟨hcon.2.1, hcon.2.2⟩)]
        · rw [if_neg (fun hcon =>
            hm ⟨(List.mem_cons.1 hcon.1).resolve_left hxx, hcon.2⟩)]

theorem lavaFill_nil (W : ℕ) (xs : List ℕ) : lavaFill [] W xs = [] := by
  induction xs with
  | nil => rfl
  | cons x rest ih =>
    rw [lavaFill, List.foldl_cons]
    have : (if 0 ≤ x ∧ x < W ∧ List.getD ([] : List Char) x ' ' = '.'
        then List.set [] x '~' else ([] : List Char)) = [] := by
      rw [if_neg (by simp)]
    rw [this]
    exact ih

theorem range'_nodup : ∀ (n s : ℕ), (List.range' s n).Nodup
  | 0, _ => List.nodup_nil
  | n + 1, s => by
    rw [List.range'_succ]
    refine List.nodup_cons.2 ⟨?_, range'_nodup n (s + 1)⟩
    intro hmem
    obtain ⟨i, _, hi⟩ := List.mem_range'.1 hmem
    omega

theorem lavaRowIndices_nodup (sx l : ℤ) : (lavaRowIndices sx l).Nodup := by
  unfold lavaRowIndices
  split
  · exact List.nodup_nil
  · exact range'_nodup _ _

theorem lavaRowIndices_mono {l1 l2 : ℤ} (h : l1 ≤ l2) (sx : ℤ) (x : ℕ)
    (hx : x ∈ lavaRowIndices sx l1) : x ∈ lavaRowIndices sx l2 := by
  unfold lavaRowIndices at hx ⊢
  by_cases h1 : l1 ≤ 0
  · rw [if_pos h1] at hx
    cases hx
  · rw [if_neg h1] at hx
    rw [if_neg (by omega)]
    obtain ⟨i, hi, hxi⟩ := List.mem_range'.1 hx
    exact List.mem_range'.2 ⟨i, by omega, hxi⟩

/-- Single-row transform: the resulting cell is lava exactly on the strip
(when the row guard holds and the base cell is empty), otherwise unchanged. -/
theorem applyLavaRow_cell (g : List (List Char)) (H : ℤ) (W : ℕ)
    (sx l y' : ℤ) (x y : ℕ) :
    gridCell (applyLavaRow g H W sx l y') x y =
      if (0 ≤ y' ∧ y' < H - 1) ∧ y = y'.toNat ∧ x ∈ lavaRowIndices sx l ∧
         x < W ∧ gridCell g x y = '.' then '~'
      else gridCell g x y := by
  unfold applyLavaRow
  by_cases hg : 0 ≤ y' ∧ y' < H - 1
  · rw [if_pos hg]
    unfold gridCell
    dsimp only
    rw [list_set_getD]
    by_cases hy : y = y'.toNat ∧ y'.toNat < g.length
    · rw [if_pos hy]
      rw [lavaFill_getD W _ (lavaRowIndices_nodup sx l)]
      rcases hy with ⟨hy1, _⟩
      subst hy1
      by_cases hc : x ∈ lavaRowIndices sx l ∧ x < W ∧
          (g.getD y'.toNat []).getD x ' ' = '.'
      · rw [if_pos hc, if_pos ⟨hg, rfl, hc⟩]
      · rw [if_neg hc, if_neg (by
          intro hcon
          exact hc ⟨hcon.2.2.1, hcon.2.2.2.1, hcon.2.2.2.2⟩)]
    · rw [if_neg hy]
      by_cases hy1 : y = y'.toNat
      · have hlen : g.length ≤ y := by
          rcases Nat.lt_or_ge y'.toNat g.length with hlt | hge
          · exact absurd ⟨hy1, hlt⟩ hy
          · omega
        have hrow : g.getD y [] = [] := by
          rw [List.getD_eq_getElem?_getD, List.getElem?_eq_none hlen]
          rfl
        rw [if_neg (by
          intro hcon
          have := hcon.2.2.2.2
          rw [hrow] at this
          simp at this)]
      · rw [if_neg (fun hcon => hy1 hcon.2.1)]
  · rw [if_neg hg, if_neg (fun hcon => hg hcon.1)]

theorem applyRow_lava_iff (g : List (List Char)) (H : ℤ) (W : ℕ)
    (sx l y' : ℤ) (x y : ℕ) :
    gridCell (applyLavaRow g H W sx l y') x y = '~' ↔
      gridCell g x y = '~' ∨
        ((0 ≤ y' ∧ y' < H - 1) ∧ y = y'.toNat ∧ x ∈ lavaRowIndices sx l ∧
          x < W ∧ gridCell g x y = '.') := by
  rw [applyLavaRow_cell]
  by_cases hc : (0 ≤ y' ∧ y' < H - 1) ∧ y = y'.toNat ∧
      x ∈ lavaRowIndices sx l ∧ x < W ∧ gridCell g x y = '.'
  · rw [if_pos hc]
    exact ⟨fun _ => Or.inr hc, fun _ => rfl⟩
  · rw [if_neg hc]
    exact ⟨Or.inl, fun h => h.resolve_right hc⟩

theorem applyRow_dot_iff (g : List (List Char)) (H : ℤ) (W : ℕ)
    (sx l y' : ℤ) (x y : ℕ) :
    gridCell (applyLavaRow g H W sx l y') x y = '.' ↔
      ¬((0 ≤ y' ∧ y' < H - 1) ∧ y = y'.toNat ∧ x ∈ lavaRowIndices sx l ∧
          x < W ∧ gridCell g x y = '.') ∧ gridCell g x y = '.' := by
  rw [applyLavaRow_cell]
  by_cases hc : (0 ≤ y' ∧ y' < H - 1) ∧ y = y'.toNat ∧
      x ∈ lavaRowIndices sx l ∧ x < W ∧ gridCell g x y = '.'
  · rw [if_pos hc]
    constructor
    · intro h
      cases h
    · intro h
      exact absurd hc h.1
  · rw [if_neg hc]
    exact ⟨fun h => ⟨hc, h⟩, fun h => h.2⟩

/-- For a positive stage the transform is the two row transforms at `H-4`
then `H-5`. -/
theorem apply_lava_eq (base : List (List Char)) (stage : ℕ) (hs : stage ≠ 0) :
    apply_level2_progressive_lava base stage =
      applyLavaRow
        (applyLavaRow base (base.length : ℤ) (base.headD []).length 52
          (min (8 + (stage : ℤ) * 6) (((base.headD []).length : ℤ) - 52 - 2))
          ((base.length : ℤ) - 4))
        (base.length : ℤ) (base.headD []).length 52
        (min (8 + (stage : ℤ) * 6) (((base.headD []).length : ℤ) - 52 - 2))
        ((base.length : ℤ) - 5) := by
  unfold apply_level2_progressive_lava
  rw [if_neg (by omega)]
  rfl

/-- C6: the hard level's grid transformation is pure (it is a function of the
base grid and the counter, applied to the value, so two requests at the same
counter agree and the stored base is never changed), at counter `0` the
returned grid is exactly the base grid, and the lava-tile set is monotone in
the counter. -/
theorem level2_lava_monotone (b1 bh base : List (List Char)) (n : ℕ) :
    get_level_grid b1 base bh 0 2 = base ∧
    (∀ x y, isLavaTile (get_level_grid b1 base bh n 2) x y →
      isLavaTile (get_level_grid b1 base bh (n + 1) 2) x y) := by
  constructor
  · rfl
  · intro x y h
    show gridCell (apply_level2_progressive_lava base (n + 1)) x y = '~'
    have hlen : min (8 + (n : ℤ) * 6) (((base.headD []).length : ℤ) - 52 - 2) ≤
        min (8 + ((n : ℤ) + 1) * 6) (((base.headD []).length : ℤ) - 52 - 2) := by
      apply min_le_min _ le_rfl
      omega
    have hsplit : gridCell base x y = '~' ∨
        ((0 ≤ (base.length : ℤ) - 4 ∧ (base.length : ℤ) - 4 < (base.length : ℤ) - 1) ∧
          y = ((base.length : ℤ) - 4).toNat ∧
          x ∈ lavaRowIndices 52
            (min (8 + (n : ℤ) * 6) (((base.headD []).length : ℤ) - 52 - 2)) ∧
          x < (base.headD []).length ∧ gridCell base x y = '.') ∨
        ((0 ≤ (base.length : ℤ) - 5 ∧ (base.length : ℤ) - 5 < (base.length : ℤ) - 1) ∧
          y = ((base.length : ℤ) - 5).toNat ∧
          x ∈ lavaRowIndices 52
            (min (8 + (n : ℤ) * 6) (((base.headD []).length : ℤ) - 52 - 2)) ∧
          x < (base.headD []).length ∧ gridCell base x y = '.') := by
      rcases Nat.eq_zero_or_pos n with hn | hn
      · subst hn
        exact Or.inl h
      · have h' : gridCell (apply_level2_progressive_lava base n) x y = '~' := h
        rw [apply_lava_eq base n (by omega), applyRow_lava_iff] at h'
        rcases h' with h' | h'
        · rw [applyRow_lava_iff] at h'
          rcases h' with h' | h'
          · exact Or.inl h'
          · exact Or.inr (Or.inl h')
        · obtain ⟨hg5, hy5, hx5, hxW5, hdot5⟩ := h'
          rw [applyRow_dot_iff] at hdot5
          exact Or.inr (Or.inr ⟨hg5, hy5, hx5, hxW5, hdot5.2⟩)
    rw [apply_lava_eq base (n + 1) (by omega), applyRow_lava_iff]
    rcases hsplit with hb | h4 | h5
    · exact Or.inl ((applyRow_lava_iff _ _ _ _ _ _ _ _).2 (Or.inl hb))
    · obtain ⟨hg4, hy4, hx4, hxW4, hdot4⟩ := h4
      refine Or.inl ((applyRow_lava_iff _ _ _ _ _ _ _ _).2 (Or.inr ?_))
      push_cast at hg4 hy4 hx4 ⊢
      exact ⟨hg4, hy4, lavaRowIndices_mono hlen 52 x hx4,
        hxW4, hdot4⟩
    · obtain ⟨hg5, hy5, hx5, hxW5, hdot5⟩ := h5
      refine Or.inr ?_
      push_cast at hg5 hy5 hx5 ⊢
      refine ⟨hg5, hy5, lavaRowIndices_mono hlen 52 x hx5,
        hxW5, ?_⟩
      rw [applyRow_dot_iff]
      refine ⟨?_, hdot5⟩
      intro hcon
      obtain ⟨hg4, hy4, _⟩ := hcon
      omega

/-- Specification of the run-splitting register loop `rowRunsAux start prev
rest`: over the domain `[start, prev] ∪ rest` (with `rest` strictly sorted
above `prev`), the produced runs are intervals that exactly cover the domain
and are maximal in it. -/
theorem rowRunsAux_spec :
    ∀ (rest : List ℤ) (start prev : ℤ), List.Sorted (· < ·) rest →
      (∀ r ∈ rest, prev + 1 ≤ r) → start ≤ prev →
      (∀ p ∈ rowRunsAux start prev rest, start ≤ p.1 ∧ p.1 ≤ p.2) ∧
      (∀ p ∈ rowRunsAux start prev rest, ∀ z : ℤ, p.1 ≤ z → z ≤ p.2 →
        (start ≤ z ∧ z ≤ prev) ∨ z ∈ rest) ∧
      (∀ z : ℤ, (start ≤ z ∧ z ≤ prev) ∨ z ∈ rest →
        ∃ p ∈ rowRunsAux start prev rest, p.1 ≤ z ∧ z ≤ p.2) ∧
      (∀ p ∈ rowRunsAux start prev rest,
        ¬((start ≤ p.2 + 1 ∧ p.2 + 1 ≤ prev) ∨ p.2 + 1 ∈ rest)) ∧
      (∀ p ∈ rowRunsAux start prev rest,
        p.1 = start ∨
          ¬((start ≤ p.1 - 1 ∧ p.1 - 1 ≤ prev) ∨ p.1 - 1 ∈ rest)) := by
  intro rest
  induction rest with
  | nil =>
    intro start prev _ _ hsp
    refine ⟨?_, ?_, ?_, ?_, ?_⟩
    · intro p hp
      rw [rowRunsAux, List.mem_singleton] at hp
      subst hp
      exact ⟨le_refl _, hsp⟩
    · intro p hp z h1 h2
      rw [rowRunsAux, List.mem_singleton] at hp
      subst hp
      exact Or.inl ⟨h1, h2⟩
    · intro z hz
      rcases hz with ⟨h1, h2⟩ | hz
      · exact ⟨(start, prev), by rw [rowRunsAux]; exact List.mem_singleton.2 rfl,
          h1, h2⟩
      · cases hz
    · intro p hp
      rw [rowRunsAux, List.mem_singleton] at hp
      subst hp
      rintro (⟨_, h⟩ | h)
      · omega
      · cases h
    · intro p hp
      rw [rowRunsAux, List.mem_singleton] at hp
      subst hp
      exact Or.inl rfl
  | cons x rest' ih =>
    intro start prev hsort hbig hsp
    have hsort' : List.Sorted (· < ·) rest' := (List.sorted_cons.1 hsort).2
    have hxlt : ∀ r ∈ rest', x < r := (List.sorted_cons.1 hsort).1
    have hx1 : prev + 1 ≤ x := hbig x (List.mem_cons_self x rest')
    by_cases hx : x = prev + 1
    · subst hx
      rw [show rowRunsAux start prev ((prev + 1) :: rest') =
          rowRunsAux start (prev + 1) rest' by rw [rowRunsAux, if_pos rfl]]
      obtain ⟨c1, c2, c3, c4, c5⟩ := ih start (prev + 1) hsort'
        (fun r hr => by have := hxlt r hr; omega) (by omega)
      have hdom : ∀ z : ℤ,
          ((start ≤ z ∧ z ≤ prev) ∨ z ∈ (prev + 1) :: rest') ↔
          ((start ≤ z ∧ z ≤ prev + 1) ∨ z ∈ rest') := by
        intro z
        constructor
        · rintro (⟨h1, h2⟩ | hz)
          · exact Or.inl ⟨h1, by omega⟩
          · rcases List.mem_cons.1 hz with rfl | hz
            · exact Or.inl ⟨by omega, le_refl _⟩
            · exact Or.inr hz
        · rintro (⟨h1, h2⟩ | hz)
          · rcases lt_or_eq_of_le h2 with h2 | h2
            · exact Or.inl ⟨h1, by omega⟩
            · exact Or.inr (by rw [h2]; exact List.mem_cons_self _ _)
          · exact Or.inr (List.mem_cons_of_mem _ hz)
      refine ⟨c1, ?_, ?_, ?_, ?_⟩
      · intro p hp z h1 h2
        exact (hdom z).2 (c2 p hp z h1 h2)
      · intro z hz
        exact c3 z ((hdom z).1 hz)
      · intro p hp
        intro hcon
        exact c4 p hp ((hdom _).1 hcon)
      · intro p hp
        rcases c5 p hp with h | h
        · exact Or.inl h
        · exact Or.inr (fun hcon => h ((hdom _).1 hcon))
    · have hxgt : prev + 1 < x := lt_of_le_of_ne hx1 (fun h => hx h.symm)
      rw [show rowRunsAux start prev (x :: rest') =
          (start, prev) :: rowRunsAux x x rest' by
        rw [rowRunsAux, if_neg hx]]
      obtain ⟨c1, c2, c3, c4, c5⟩ := ih x x hsort'
        (fun r hr => by have := hxlt r hr; omega) (le_refl x)
      refine ⟨?_, ?_, ?_, ?_, ?_⟩
      · intro p hp
        rcases List.mem_cons.1 hp with rfl | hp
        · exact ⟨le_refl _, hsp⟩
        · obtain ⟨h1, h2⟩ := c1 p hp
          exact ⟨by omega, h2⟩
      · intro p hp z h1 h2
        rcases List.mem_cons.1 hp with rfl | hp
        · exact Or.inl ⟨h1, h2⟩
        · rcases c2 p hp z h1 h2 with ⟨hz1, hz2⟩ | hz
          · have : z = x := by omega
            subst this
            exact Or.inr (List.mem_cons_self _ _)
          · exact Or.inr (List.mem_cons_of_mem _ hz)
      · intro z hz
        rcases hz with ⟨h1, h2⟩ | hz
        · exact ⟨(start, prev), List.mem_cons_self _ _, h1, h2⟩
        · rcases List.mem_cons.1 hz with rfl | hz
          · obtain ⟨p, hp, hpz⟩ := c3 z (Or.inl ⟨le_refl _, le_refl _⟩)
            exact ⟨p, List.mem_cons_of_mem _ hp, hpz⟩
          · obtain ⟨p, hp, hpz⟩ := c3 z (Or.inr hz)
            exact ⟨p, List.mem_cons_of_mem _ hp, hpz⟩
      · intro p hp
        rcases List.mem_cons.1 hp with rfl | hp
        · rintro (⟨_, h⟩ | h)
          · omega
          · rcases List.mem_cons.1 h with h | h
            · omega
            · have := hxlt _ h
              omega
        · obtain ⟨hge, hle⟩ := c1 p hp
          rintro (⟨_, h⟩ | h)
          · omega
          · rcases List.mem_cons.1 h with h | h
            · omega
            · exact c4 p hp (Or.inr h)
      · intro p hp
        rcases List.mem_cons.1 hp with rfl | hp
        · exact Or.inl rfl
        · obtain ⟨hge, hle⟩ := c1 p hp
          rcases c5 p hp with h | h
          · refine Or.inr ?_
            rintro (⟨_, hcon⟩ | hcon)
            · omega
            · rcases List.mem_cons.1 hcon with hcon | hcon
              · omega
              · have := hxlt _ hcon
                omega
          · refine Or.inr ?_
            rintro (⟨hcon1, hcon2⟩ | hcon)
            · omega
            · rcases List.mem_cons.1 hcon with hcon | hcon
              · exact h (Or.inl ⟨by omega, by omega⟩)
              · exact h (Or.inr hcon)

theorem addToRow_lookup (y : ℤ) (x y' : ℤ) :
    ∀ rows : List (ℤ × List ℤ),
      (addToRow rows y x).lookup y' =
        if y' = y then some ((rows.lookup y).getD [] ++ [x])
        else rows.lookup y' := by
  intro rows
  induction rows with
  | nil =>
    by_cases h : y' = y
    · subst h
      simp [addToRow, List.lookup]
    · simp [addToRow, List.lookup, h, beq_eq_false_iff_ne.mpr h]
  | cons hd rest ih =>
    obtain ⟨k, vs⟩ := hd
    rw [addToRow]
    by_cases hk : k = y
    · subst hk
      rw [if_pos rfl]
      by_cases h : y' = k
      · subst h
        simp [List.lookup]
      · simp [List.lookup, h, beq_eq_false_iff_ne.mpr h]
    · rw [if_neg hk]
      by_cases h : y' = k
      · subst h
        simp [List.lookup, hk]
      · simp [List.lookup, beq_eq_false_iff_ne.mpr h, ih,
          beq_eq_false_iff_ne.mpr (fun hc : y = k => hk hc.symm), h]

theorem foldl_addToRow_lookup (y : ℤ) :
    ∀ (points : List (ℤ × ℤ)) (rows : List (ℤ × List ℤ)),
      (points.foldl (fun rows p => addToRow rows p.2 p.1) rows).lookup y =
        match rows.lookup y with
        | some xs => some (xs ++ rowXs points y)
        | none =>
          if rowXs points y = [] then none else some (rowXs points y) := by
  intro points
  induction points with
  | nil =>
    intro rows
    rcases h : rows.lookup y with _ | xs <;> simp [rowXs, h]
  | cons p rest ih =>
    intro rows
    rw [List.foldl_cons, ih]
    by_cases hpy : p.2 = y
    · have hxs : rowXs (p :: rest) y = p.1 :: rowXs rest y := by
        simp [rowXs, List.filter_cons, hpy]
      rw [addToRow_lookup, if_pos hpy.symm, hxs, hpy]
      rcases h : rows.lookup y with _ | xs
      · simp
      · simp
    · have hxs : rowXs (p :: rest) y = rowXs rest y := by
        simp [rowXs, List.filter_cons, hpy]
      rw [addToRow_lookup, if_neg (fun hc => hpy hc.symm), hxs]

theorem byRow_lookup (points : List (ℤ × ℤ)) (y : ℤ) :
    (byRow points).lookup y =
      if rowXs points y = [] then none else some (rowXs points y) := by
  rw [byRow, foldl_addToRow_lookup]
  rfl

theorem rowXs_mem (points : List (ℤ × ℤ)) (y z : ℤ) :
    z ∈ rowXs points y ↔ (z, y) ∈ points := by
  simp only [rowXs, List.mem_map, List.mem_filter]
  constructor
  · rintro ⟨⟨a, b⟩, ⟨hm, hb⟩, rfl⟩
    have : b = y := by simpa using hb
    subst this
    exact hm
  · intro hm
    exact ⟨(z, y), ⟨hm, by simp⟩, rfl⟩

theorem rowXs_nodup (points : List (ℤ × ℤ)) (y : ℤ) (hnd : points.Nodup) :
    (rowXs points y).Nodup := by
  refine ((hnd.filter _).map_on ?_)
  rintro ⟨a, b⟩ ha ⟨c, d⟩ hc h
  have hb : b = y := by simpa using (List.mem_filter.1 ha).2
  have hd : d = y := by simpa using (List.mem_filter.1 hc).2
  simp only at h
  rw [h, hb, hd]

theorem lookup_map_runs (y : ℤ) :
    ∀ l : List (ℤ × List ℤ),
      (l.map (fun p => (p.1, rowRuns (p.2.insertionSort (· ≤ ·))))).lookup y =
        (l.lookup y).map (fun xs => rowRuns (xs.insertionSort (· ≤ ·))) := by
  intro l
  induction l with
  | nil => rfl
  | cons p rest ih =>
    by_cases h : p.1 = y
    · simp [List.lookup, h]
    · simp [List.lookup,
        beq_eq_false_iff_ne.mpr (fun hc : y = p.1 => h hc.symm), ih]

theorem sort_strict (xs : List ℤ) (h : xs.Nodup) :
    List.Sorted (· < ·) (xs.insertionSort (· ≤ ·)) := by
  have hs : List.Sorted (· ≤ ·) (xs.insertionSort (· ≤ ·)) :=
    List.sorted_insertionSort (· ≤ ·) xs
  have hn : (xs.insertionSort (· ≤ ·)).Nodup :=
    (List.perm_insertionSort (· ≤ ·) xs).nodup_iff.2 h
  exact (hs.and hn).imp fun hab => lt_of_le_of_ne hab.1 hab.2

/-- `rowRuns` on a strictly sorted list returns the maximal runs of
consecutive integers of that list. -/
theorem rowRuns_spec (xs : List ℤ) (hsort : List.Sorted (· < ·) xs) :
    (∀ p ∈ rowRuns xs, p.1 ≤ p.2 ∧
      (∀ z : ℤ, p.1 ≤ z → z ≤ p.2 → z ∈ xs) ∧
      p.1 - 1 ∉ xs ∧ p.2 + 1 ∉ xs) ∧
    (∀ z ∈ xs, ∃ p ∈ rowRuns xs, p.1 ≤ z ∧ z ≤ p.2) := by
  cases xs with
  | nil =>
    constructor
    · intro p hp
      cases hp
    · intro z hz
      cases hz
  | cons x rest =>
    have hsort' : List.Sorted (· < ·) rest := (List.sorted_cons.1 hsort).2
    have hxlt : ∀ r ∈ rest, x < r := (List.sorted_cons.1 hsort).1
    obtain ⟨c1, c2, c3, c4, c5⟩ := rowRunsAux_spec rest x x hsort'
      (fun r hr => by have := hxlt r hr; omega) (le_refl x)
    have hdom : ∀ z : ℤ, ((x ≤ z ∧ z ≤ x) ∨ z ∈ rest) ↔ z ∈ x :: rest := by
      intro z
      constructor
      · rintro (⟨h1, h2⟩ | hz)
        · have : z = x := by omega
          rw [this]
          exact List.mem_cons_self _ _
        · exact List.mem_cons_of_mem _ hz
      · intro hz
        rcases List.mem_cons.1 hz with rfl | hz
        · exact Or.inl ⟨le_refl _, le_refl _⟩
        · exact Or.inr hz
    rw [show rowRuns (x :: rest) = rowRunsAux x x rest from rfl]
    constructor
    · intro p hp
      refine ⟨(c1 p hp).2, ?_, ?_, ?_⟩
      · intro z h1 h2
        exact (hdom z).1 (c2 p hp z h1 h2)
      · rcases c5 p hp with h | h
        · intro hcon
          rcases List.mem_cons.1 hcon with hcon | hcon
          · omega
          · have := hxlt _ hcon
            omega
        · intro hcon
          exact h ((hdom _).2 hcon)
      · intro hcon
        exact c4 p hp ((hdom _).2 hcon)
    · intro z hz
      exact c3 z ((hdom z).2 hz)

/-- C8: `build_contiguous_runs` groups points by row and splits each row's
sorted columns into maximal runs of consecutive integers, never merging
points from different rows: every reported run `(a, b)` of row `y` is an
interval all of whose integers are points of row `y`, it cannot be extended
on either side inside row `y`, and every point of row `y` lies in one of the
row's runs.  In particular the input `[(5,0), (6,0), (8,0)]` produces
exactly the runs `(5,6)` and `(8,8)` on row `0`. -/
theorem contiguous_run_merge (points : List (ℤ × ℤ)) (hnd : points.Nodup) :
    build_contiguous_runs [(5, 0), (6, 0), (8, 0)] = [(0, [(5, 6), (8, 8)])] ∧
    ∀ (y : ℤ) (rs : List (ℤ × ℤ)),
      (build_contiguous_runs points).lookup y = some rs →
      (∀ p ∈ rs, p.1 ≤ p.2 ∧
        (∀ z : ℤ, p.1 ≤ z → z ≤ p.2 → (z, y) ∈ points) ∧
        (p.1 - 1, y) ∉ points ∧ (p.2 + 1, y) ∉ points) ∧
      (∀ z : ℤ, (z, y) ∈ points → ∃ p ∈ rs, p.1 ≤ z ∧ z ≤ p.2) := by
  constructor
  · decide
  · intro y rs hlk
    rw [show build_contiguous_runs points =
        (byRow points).map (fun p =>
          (p.1, rowRuns (p.2.insertionSort (· ≤ ·)))) from rfl,
      lookup_map_runs, byRow_lookup] at hlk
    by_cases hempty : rowXs points y = []
    · rw [if_pos hempty] at hlk
      cases hlk
    · rw [if_neg hempty] at hlk
      have hrs : rs = rowRuns ((rowXs points y).insertionSort (· ≤ ·)) := by
        have h2 : some (rowRuns ((rowXs points y).insertionSort (· ≤ ·))) =
            some rs := hlk
        exact (Option.some.inj h2).symm
      subst hrs
      have hnd' := rowXs_nodup points y hnd
      have hmem : ∀ z : ℤ,
          z ∈ (rowXs points y).insertionSort (· ≤ ·) ↔ (z, y) ∈ points :=
        fun z => ((List.perm_insertionSort (· ≤ ·) (rowXs points y)).mem_iff).trans
          (rowXs_mem points y z)
      obtain ⟨hA, hB⟩ := rowRuns_spec _ (sort_strict _ hnd')
      constructor
      · intro p hp
        obtain ⟨h1, h2, h3, h4⟩ := hA p hp
        exact ⟨h1, fun z hz1 hz2 => (hmem z).1 (h2 z hz1 hz2),
          fun hc => h3 ((hmem _).2 hc), fun hc => h4 ((hmem _).2 hc)⟩
      · intro z hz
        exact hB z ((hmem z).2 hz)

/-- Witness for C8: on the concrete three-point input the run `(5, 6)`
covers the point `(6, 0)` and the run `(8, 8)` cannot be extended to `9`. -/
theorem contiguous_run_merge_witness :
    ((6 : ℤ), (0 : ℤ)) ∈ [((5 : ℤ), (0 : ℤ)), (6, 0), (8, 0)] ∧
    ((9 : ℤ), (0 : ℤ)) ∉ [((5 : ℤ), (0 : ℤ)), (6, 0), (8, 0)] := by
  have h := (contiguous_run_merge [(5, 0), (6, 0), (8, 0)] (by decide)).2 0
    [(5, 6), (8, 8)] (by decide)
  exact ⟨(h.1 (5, 6) (by decide)).2.1 6 (by decide) (by decide),
    (h.1 (8, 8) (by decide)).2.2.2⟩

/-- Witness for C6 on a 60-wide grid: counter 0 returns the base unchanged,
and a lava tile present at counter 1 is still lava at counter 2. -/
theorem level2_lava_monotone_witness :
    get_level_grid base60 base60 base60 0 2 = base60 ∧
    isLavaTile (get_level_grid base60 base60 base60 2 2) 52 2 := by
  constructor
  · exact (level2_lava_monotone base60 base60 base60 0).1
  · exact (level2_lava_monotone base60 base60 base60 1).2 52 2 (by decide)

end Dodo
